import Mathlib

/-!
Verification of AndroidUtils.ts (lwc-dev-mobile-core).

Shallow embedding of the pure/control-flow content of
src/common/AndroidUtils.ts.  JavaScript strings are modelled as lists of
characters (`Str`); external process executions are modelled by passing
their observable outcomes (stdout/stderr/rejection) as explicit inputs;
functions that issue device commands additionally return the list of
commands they issued, in order.
-/

namespace LwcCore

/-- JavaScript strings are modelled as lists of characters. -/
abbrev Str := List Char

/-- Model of JavaScript String.prototype.toLowerCase restricted to ASCII. -/
def toLowerStr (s : Str) : Str := s.map Char.toLower

/-- Model of testing whether the first string is an initial segment of the second. -/
def isPrefixOfChars : Str → Str → Bool
  | [], _ => true
  | _ :: _, [] => false
  | a :: as, b :: bs => a == b && isPrefixOfChars as bs

/-- Model of JavaScript String.prototype.includes: substring search. -/
def containsSubstr (needle : Str) : Str → Bool
  | [] => isPrefixOfChars needle []
  | b :: bs => isPrefixOfChars needle (b :: bs) || containsSubstr needle bs

/-- The case-insensitive error marker searched for by executeAdbCommandWithRetry
(AndroidUtils.ts line 914). -/
def errorMarker : Str := "error:".toList

/-- Observable outcome of one execution of the external adb command inside
executeAdbCommandWithRetry (AndroidUtils.ts lines 899-903): either the
promise rejected with an error (whose string form is recorded) or it
resolved with stdout and stderr.  On rejection the local result variable
keeps its initial empty stdout/stderr. -/
structure AdbAttempt where
  err : Option Str
  stderr : Str
  stdout : Str
deriving DecidableEq

/-- The combined output buffer built by executeAdbCommandWithRetry
(AndroidUtils.ts lines 905-908): error text, then stderr prefixed with a
newline when nonempty, then stdout prefixed with a newline when nonempty. -/
def attemptBuffer (a : AdbAttempt) : Str :=
  (a.err.getD []) ++
    (if a.stderr.isEmpty then [] else '\n' :: a.stderr) ++
    (if a.stdout.isEmpty then [] else '\n' :: a.stdout)

/-- The failure test of executeAdbCommandWithRetry (AndroidUtils.ts line 914):
the buffer is nonempty and its lower-cased form contains the error marker. -/
def attemptFails (a : AdbAttempt) : Bool :=
  !(attemptBuffer a).isEmpty && containsSubstr errorMarker (toLowerStr (attemptBuffer a))

/-- The retry loop of executeAdbCommandWithRetry (AndroidUtils.ts lines 892-927).
`att j` is the observable outcome of the j-th execution of the external
command; `remaining` counts the retries still allowed after the current
attempt at index `i`.  Returns the number of attempts actually executed
together with the overall result: stdout of the first non-failing attempt,
or, after exhaustion, rejection carrying the buffer of the last attempt. -/
def adbRetryLoop (att : Nat → AdbAttempt) (i : Nat) : Nat → Nat × Except Str Str
  | 0 =>
    let a := att i
    if attemptFails a then (1, .error (attemptBuffer a)) else (1, .ok a.stdout)
  | r + 1 =>
    let a := att i
    if attemptFails a then
      let rest := adbRetryLoop att (i + 1) r
      (rest.1 + 1, rest.2)
    else (1, .ok a.stdout)

/-- Model of executeAdbCommandWithRetry (AndroidUtils.ts lines 882-931):
up to numRetries+1 total attempts of the same external command. -/
def executeAdbCommandWithRetry (att : Nat → AdbAttempt) (numRetries : Nat) :
    Nat × Except Str Str :=
  adbRetryLoop att 0 numRetries

/-- Modelled from the words of claim C1 and C2 ("the concatenation of error
text (if any), stderr, and stdout"): plain concatenation of the three
pieces with no separators.  Used only to compare the claims' wording with
the code's buffer. -/
def specPlainBuffer (a : AdbAttempt) : Str :=
  (a.err.getD []) ++ a.stderr ++ a.stdout

/-- Decimal character representation of a natural number, as JavaScript's
implicit Number-to-String conversion produces it. -/
def decimalChars (n : Nat) : Str := Nat.toDigits 10 n

/-- Lexicographic comparison of character lists by code point, as used by
the default (comparator-less) JavaScript Array.prototype.sort. -/
def strLtChars : Str → Str → Bool
  | [], [] => false
  | [], _ :: _ => true
  | _ :: _, [] => false
  | a :: as, b :: bs =>
    if a.toNat < b.toNat then true
    else if b.toNat < a.toNat then false
    else strLtChars as bs

/-- Model of getNextAvailableAdbPort (AndroidUtils.ts lines 1311-1320).
The source computes ports.sort().reverse()[0] + 2; the comparator-less
JavaScript sort orders the numbers by their decimal string representation,
so the selected element is the maximum under that lexicographic order
(computed here by a fold), not the numeric maximum.  With no active ports
the configured default port is returned. -/
def getNextAvailableAdbPort (ports : List Nat) (defaultAdbPort : Nat) : Nat :=
  match ports with
  | [] => defaultAdbPort
  | p :: rest =>
    (rest.foldl
      (fun acc q => if strLtChars (decimalChars acc) (decimalChars q) then q else acc) p) + 2

/-- Observable outcome of CommonUtils.executeCommandAsync: stdout and stderr
of the resolved promise. -/
structure CmdResult where
  stdout : Str
  stderr : Str
deriving DecidableEq

/-- Model of fetchEmulators (AndroidUtils.ts lines 223-240).  The listing
command's outcome is passed in as cmd (rejection carries its error text);
the AVD parser (AndroidVirtualDevice.parseRawString, defined outside this
source file) is passed in as an arbitrary, possibly-throwing function.
The promise chain parses stdout when nonempty and converts any rejection
into resolution with the devices gathered so far (the empty list, since
the devices variable is only assigned after a successful parse). -/
def fetchEmulators {α : Type} (cmd : Except Str CmdResult)
    (parse : Str → Except Str (List α)) : Except Str (List α) :=
  let step : Except Str (List α) :=
    match cmd with
    | .error e => .error e
    | .ok result => if result.stdout.isEmpty then .ok [] else parse result.stdout
  match step with
  | .error _ => .ok []
  | .ok devices => .ok devices

/-- Modelled from the spec: the Version value type of Common.ts is not under
src/.  An ordered triple-like value with optional minor and patch
components (spec section 3). -/
structure Version where
  major : Nat
  minor : Option Nat
  patch : Option Nat
deriving DecidableEq

/-- Modelled from the spec: compare(a,b) is -1/0/1, lexicographic over the
components with a missing component treated as zero (spec section 4.1). -/
def Version.compare (a b : Version) : Int :=
  if a.major < b.major then -1
  else if b.major < a.major then 1
  else if a.minor.getD 0 < b.minor.getD 0 then -1
  else if b.minor.getD 0 < a.minor.getD 0 then 1
  else if a.patch.getD 0 < b.patch.getD 0 then -1
  else if b.patch.getD 0 < a.patch.getD 0 then 1
  else 0

/-- Modelled from the spec: sameOrNewer(a,b) is compare(a,b) >= 0
(spec section 4.1). -/
def Version.sameOrNewer (a b : Version) : Bool :=
  decide (0 ≤ Version.compare a b)

/-- Modelled from the spec: same(a,b) holds when every component present in
both versions is equal; a shorter version is a prefix match
(spec section 4.1). -/
def Version.same (a b : Version) : Bool :=
  a.major == b.major &&
    (match a.minor, b.minor with
     | some x, some y => x == y
     | _, _ => true) &&
    (match a.patch, b.patch with
     | some x, some y => x == y
     | _, _ => true)

/-- Modelled from the spec: the AndroidPackage record of AndroidTypes.ts is
not under src/.  A package has a semicolon-delimited path, a version and a
description; platform packages additionally expose their platform API
level string (spec section 3). -/
structure AndroidPackage where
  path : Str
  version : Version
  description : Str
  platformAPI : Str
deriving DecidableEq

/-- Modelled from the spec: the AndroidPackages inventory of AndroidTypes.ts
is not under src/.  A mapping from category to ordered package sequences
(spec section 3). -/
structure AndroidPackages where
  platforms : List AndroidPackage
  systemImages : List AndroidPackage
  buildTools : List AndroidPackage
deriving DecidableEq

/-- Modelled from the spec: the inventory is empty when it holds no packages
in any category (spec section 3, PackageInventory invariant). -/
def AndroidPackages.isEmpty (p : AndroidPackages) : Bool :=
  p.platforms.isEmpty && p.systemImages.isEmpty && p.buildTools.isEmpty

/-- The configuration constants consumed by the package-resolution code,
supplied externally by PlatformConfig.androidConfig(). -/
structure AndroidConfig where
  minSupportedRuntime : Version
  supportedArchitectures : List Str
  supportedImages : List Str

/-- Model of packageWithRequiredEmulatorImages (AndroidUtils.ts lines
1342-1366): iterate supported architectures (outer) and supported images
(inner) and return the first installed system image whose path contains
the substring platformAPI;image;architecture (the regular expression on
line 1355 is a plain parenthesised group, hence a substring test). -/
def packageWithRequiredEmulatorImages (cfg : AndroidConfig)
    (installedSystemImages : List AndroidPackage)
    (androidPackage : AndroidPackage) : Option AndroidPackage :=
  cfg.supportedArchitectures.findSome? fun architecture =>
    cfg.supportedImages.findSome? fun image =>
      installedSystemImages.find? fun img =>
        containsSubstr
          (androidPackage.platformAPI ++ ';' :: image ++ ';' :: architecture)
          img.path

/-- Error outcomes of the package-resolution operations; each constructor
stands for one distinct rejection message of the source. -/
inductive ApiError where
  | noPackagesInstalled
  | noSupportedPackage
  | noMatchForApiLevel
  | noSupportedWithImages
deriving DecidableEq

/-- The descending-by-version ordering used to sort candidate packages:
a comes before b when compare(a,b) >= 0, matching the comparator
(a,b) => a.version.compare(b.version) * -1 on AndroidUtils.ts line 338. -/
def pkgGE (a b : AndroidPackage) : Prop :=
  0 ≤ Version.compare a.version b.version

instance : DecidableRel pkgGE := fun a b =>
  inferInstanceAs (Decidable (0 ≤ Version.compare a.version b.version))

/-- Model of fetchAllAvailableApiPackages (AndroidUtils.ts lines 275-341):
reject on an empty inventory; keep platform packages at least the minimum
supported runtime, rejecting when none qualify; when required, keep only
those with a matching installed emulator image; finally sort descending by
version.  The JavaScript sort is guaranteed stable, so it is modelled by a
stable insertion sort under the descending ordering. -/
def fetchAllAvailableApiPackages (mustHaveSupportedEmulatorImages : Bool)
    (cfg : AndroidConfig) (allPackages : AndroidPackages) :
    Except ApiError (List AndroidPackage) :=
  if allPackages.isEmpty then .error .noPackagesInstalled
  else
    let matchingPlatforms := allPackages.platforms.filter fun pkg =>
      pkg.version.sameOrNewer cfg.minSupportedRuntime
    if matchingPlatforms.length < 1 then .error .noSupportedPackage
    else
      let results :=
        if mustHaveSupportedEmulatorImages then
          matchingPlatforms.filter fun pkg =>
            (packageWithRequiredEmulatorImages cfg allPackages.systemImages pkg).isSome
        else matchingPlatforms
      .ok (results.insertionSort pkgGE)

/-- Model of fetchSupportedAndroidAPIPackage (AndroidUtils.ts lines 351-388):
fetch the sorted candidates (with required emulator images); when an API
level is given keep only the candidates whose version is the same,
rejecting when none remain; reject when no candidate remains; otherwise
return the first candidate. -/
def fetchSupportedAndroidAPIPackage (apiLevel : Option Version)
    (cfg : AndroidConfig) (allPackages : AndroidPackages) :
    Except ApiError AndroidPackage :=
  match fetchAllAvailableApiPackages true cfg allPackages with
  | .error e => .error e
  | .ok packages =>
    match apiLevel with
    | some targetRuntime =>
      match packages.filter (fun pkg => pkg.version.same targetRuntime) with
      | [] => .error .noMatchForApiLevel
      | pkg :: _ => .ok pkg
    | none =>
      match packages with
      | [] => .error .noSupportedWithImages
      | pkg :: _ => .ok pkg

/-- The candidate packages of the resolution algorithm, before sorting:
platform packages at least the minimum supported runtime that have a
matching installed emulator image (AndroidUtils.ts lines 295-332). -/
def apiCandidates (cfg : AndroidConfig) (allPackages : AndroidPackages) :
    List AndroidPackage :=
  (allPackages.platforms.filter fun pkg =>
      pkg.version.sameOrNewer cfg.minSupportedRuntime).filter fun pkg =>
    (packageWithRequiredEmulatorImages cfg allPackages.systemImages pkg).isSome

/-- The candidates in the order produced by the stable descending sort. -/
def sortedCandidates (cfg : AndroidConfig) (allPackages : AndroidPackages) :
    List AndroidPackage :=
  (apiCandidates cfg allPackages).insertionSort pkgGE

/-- Modelled from the spec: the AndroidVirtualDevice record of
AndroidTypes.ts is not under src/.  A virtual device has a name, a target
device profile and an API level (spec section 3). -/
structure AndroidVirtualDevice where
  name : Str
  target : Str
  apiLevel : Version
deriving DecidableEq

/-- Device-level commands issued by the emulator lifecycle operations:
an adb command against the device's port, a host shell command, the
detached spawn of the emulator process, or a nested startEmulator call. -/
inductive DevCmd where
  | adb (cmd : Str)
  | exec (cmd : Str)
  | spawn (avdName : Str) (port : Nat) (writable : Bool)
  | startEmu (name : Str) (writable : Bool) (waitForBoot : Bool)
deriving DecidableEq

/-- The adb command strings appearing in the lifecycle code. -/
def rootCmd : Str := "root".toList

/-- adb command querying Android Verified Boot verification state. -/
def getVerificationCmd : Str := "shell avbctl get-verification".toList

/-- adb command querying verity state. -/
def getVerityCmd : Str := "shell avbctl get-verity".toList

/-- adb command disabling Android Verified Boot verification. -/
def disableVerificationCmd : Str := "shell avbctl disable-verification".toList

/-- adb command disabling verity. -/
def disableVerityCmd : Str := "disable-verity".toList

/-- adb command issued by rebootEmulator (AndroidUtils.ts line 640). -/
def rebootCmd : Str := "shell reboot".toList

/-- adb command issued by stopEmulator to power a device off
(AndroidUtils.ts line 619). -/
def stopCmd : Str := "shell reboot -p".toList

/-- adb remount command (AndroidUtils.ts line 799). -/
def remountCmd : Str := "remount".toList

/-- adb command issued by isEmulatorSystemWritable (AndroidUtils.ts
line 662). -/
def avdPathCmd : Str := "emu avd path".toList

/-- The substring checked in the avbctl query outputs (AndroidUtils.ts
lines 736 and 743). -/
def disabledMarker : Str := "disabled".toList

/-- The version value Version.from('29') of AndroidUtils.ts line 730. -/
def v29 : Version := ⟨29, none, none⟩

/-- Model of mountAsRootWritableSystem (AndroidUtils.ts lines 701-804),
recording the device commands issued after control returns from
startEmulator.  Inputs are the observable outcomes of the collaborators:
the port reported by startEmulator, the device record found by
fetchEmulator (none when the device cannot be found), the outputs of the
two avbctl queries, and the platform-dependent boot-wait command string
used by waitUntilDeviceIsReady.  Every modelled adb command is assumed to
succeed on its first attempt (its output carries no error marker), which
is the scenario the claim describes.  Host-side listing commands issued by
fetchEmulator are not device commands and are not recorded. -/
def mountAsRootWritableSystem (emulatorName : Str) (startPort : Nat)
    (emulator : Option AndroidVirtualDevice)
    (verificationOut verityOut : Str) (waitBootCmd : Str) :
    List DevCmd × Except Str Nat :=
  let tr0 : List DevCmd := [.startEmu emulatorName true true, .adb rootCmd]
  match emulator with
  | none => (tr0, .error ("Unable to determine device info".toList))
  | some emulator =>
    if emulator.apiLevel.sameOrNewer v29 then
      let verificationIsAlreadyDisabled := containsSubstr disabledMarker verificationOut
      let verityIsAlreadyDisabled := containsSubstr disabledMarker verityOut
      let tr1 := tr0 ++ [.adb getVerificationCmd, .adb getVerityCmd]
      let tr2 := tr1 ++
        (if verificationIsAlreadyDisabled then [] else [.adb disableVerificationCmd])
      let tr3 := tr2 ++
        (if verityIsAlreadyDisabled then [] else [.adb disableVerityCmd])
      let tr4 := tr3 ++
        (if verificationIsAlreadyDisabled && verityIsAlreadyDisabled then []
         else [.adb rebootCmd, .adb waitBootCmd, .adb rootCmd])
      (tr4 ++ [.adb remountCmd], .ok startPort)
    else
      (tr0 ++ [.adb remountCmd], .ok startPort)

/-- Observable outcomes of the collaborators consulted by startEmulator:
the resolved AVD id (resolveEmulatorImage), the port an already-running
instance occupies (emulatorHasPort, null when none), the
writable-system answer per port (isEmulatorSystemWritable), the next free
port (getNextAvailableAdbPort), and the platform-dependent wait command
strings. -/
structure StartEnv where
  resolved : Option Str
  hasPort : Option Nat
  writableCheck : Nat → Bool
  nextPort : Nat
  waitBootCmd : Str
  waitPowerOffCmd : Str

/-- Model of startEmulator (AndroidUtils.ts lines 518-606), recording the
device commands issued.  The resolved port is the already-occupied port
when that port is truthy (JavaScript treats 0 as falsy), otherwise the
next available port; the already-running fast path is taken exactly when
the resolved port strictly equals the reported port.  In the fast path the
writable check (one adb command) runs and, when writable is not requested
or already satisfied, the port is returned with no further command;
otherwise the device is stopped (power-off command plus the power-off
wait, AndroidUtils.ts lines 614-628 and 836-859) and relaunched on the
same port.  When not running, the emulator is spawned detached on the
fresh port, followed by the boot wait when requested. -/
def startEmulator (emulatorName : Str) (writable waitForBoot : Bool)
    (env : StartEnv) : List DevCmd × Except Str Nat :=
  match env.resolved with
  | none => ([], .error ("Invalid emulator: ".toList ++ emulatorName))
  | some resolvedEmulator =>
    let resolvedPortNumber :=
      match env.hasPort with
      | some p => if p ≠ 0 then p else env.nextPort
      | none => env.nextPort
    let alreadyRunning : Bool :=
      match env.hasPort with
      | some p => resolvedPortNumber == p
      | none => false
    let waitTrace : List DevCmd :=
      if waitForBoot then [.adb env.waitBootCmd] else []
    if alreadyRunning then
      let isWritable := env.writableCheck resolvedPortNumber
      if !writable || isWritable then
        ([.adb avdPathCmd], .ok resolvedPortNumber)
      else
        ([.adb avdPathCmd, .adb stopCmd, .exec env.waitPowerOffCmd,
            .spawn resolvedEmulator resolvedPortNumber writable] ++ waitTrace,
          .ok resolvedPortNumber)
    else
      ([.spawn resolvedEmulator resolvedPortNumber writable] ++ waitTrace,
        .ok resolvedPortNumber)

/-- Whitespace recognised by the model of String.prototype.trim (the
characters that occur in the data this code handles). -/
def isJsSpace (c : Char) : Bool :=
  c == ' ' || c == '\t' || c == '\n' || c == '\r'

/-- Model of String.prototype.trim. -/
def trimChars (s : Str) : Str :=
  ((s.dropWhile isJsSpace).reverse.dropWhile isJsSpace).reverse

/-- Splitting on a separator character, as JavaScript String.split with a
single-character separator: empty pieces are preserved and the empty
string yields one empty piece. -/
def splitOnChar (c : Char) : Str → List Str
  | [] => [[]]
  | x :: xs =>
    match splitOnChar c xs with
    | [] => if x == c then [[], []] else [[x]]
    | piece :: rest =>
      if x == c then [] :: piece :: rest else (x :: piece) :: rest

/-- The display form used by resolveEmulatorImage (AndroidUtils.ts lines
1412 and 1420): underscores and hyphens replaced by spaces, then trimmed. -/
def displayNameChars (s : Str) : Str :=
  trimChars (s.map fun c => if c == '_' || c == '-' then ' ' else c)

/-- Model of resolveEmulatorImage (AndroidUtils.ts lines 1409-1435).  The
input listingStdout is the stdout of the emulator -list-avds command; a
rejected listing command resolves to undefined and is modelled by the
caller passing no matching lines.  The first listed AVD equal to the
requested name, or whose display form equals the requested name's display
form, is returned trimmed; otherwise the result is undefined (none). -/
def resolveEmulatorImage (emulatorName : Str) (listingStdout : Str) :
    Option Str :=
  let emulatorDisplayName := displayNameChars emulatorName
  let listOfAVDs := splitOnChar '\n' listingStdout
  match listOfAVDs.find? (fun avd =>
      avd == emulatorName || displayNameChars avd == emulatorDisplayName) with
  | some avd => some (trimChars avd)
  | none => none

/-- A JavaScript Map from string to string, modelled as an association list
in insertion order with at most one entry per key. -/
abbrev ConfigMap := List (Str × Str)

/-- Model of Map.prototype.get. -/
def mapGet (m : ConfigMap) (k : Str) : Option Str :=
  (m.find? fun e => e.1 == k).map (·.2)

/-- Model of Map.prototype.set: update an existing key in place, otherwise
append the new entry. -/
def mapSet (m : ConfigMap) (k v : Str) : ConfigMap :=
  match m with
  | [] => [(k, v)]
  | e :: rest => if e.1 == k then (k, v) :: rest else e :: mapSet rest k v

/-- The loop body of readEmulatorConfig (AndroidUtils.ts lines 1452-1457):
a line is split on equals signs and contributes its first two pieces as a
key/value pair when it has more than one piece. -/
def readConfigLine (configMap : ConfigMap) (line : Str) : ConfigMap :=
  match splitOnChar '=' line with
  | k :: v :: _ => mapSet configMap k v
  | _ => configMap

/-- Model of readEmulatorConfig (AndroidUtils.ts lines 1437-1466).  The
input is the config file's contents, or none when reading threw; a read
failure yields the empty mapping. -/
def readEmulatorConfig (file : Option Str) : ConfigMap :=
  match file with
  | none => []
  | some configFile =>
    (splitOnChar '\n' configFile).foldl readConfigLine []

/-- Model of the serialisation performed by writeEmulatorConfig
(AndroidUtils.ts lines 1472-1475): one key=value line per entry in mapping
order, each terminated by a newline. -/
def writeEmulatorConfigString (config : ConfigMap) : Str :=
  config.foldl (fun configString e => configString ++ e.1 ++ '=' :: e.2 ++ ['\n']) []

/-- Config keys and values appearing in updateEmulatorConfig. -/
def networkLatencyKey : Str := "runtime.network.latency".toList

/-- Config key runtime.network.speed. -/
def networkSpeedKey : Str := "runtime.network.speed".toList

/-- Config key hw.device.name. -/
def hwDeviceNameKey : Str := "hw.device.name".toList

/-- Config key skin.name. -/
def skinNameKey : Str := "skin.name".toList

/-- Config key skin.path. -/
def skinPathKey : Str := "skin.path".toList

/-- The network-field normalisation of updateEmulatorConfig: the two
network fields are handled by two textually identical blocks in the
source (AndroidUtils.ts lines 1050-1066), modelled by this helper applied
to each key.  When the field is present and nonempty (JavaScript
truthiness), its value is trimmed and lower-cased in place. -/
def updateNetworkField (key : Str) (config : ConfigMap) : ConfigMap :=
  match mapGet config key with
  | some value =>
    if value.isEmpty then config
    else mapSet config key (toLowerStr (trimChars value))
  | none => config

/-- Model of updateEmulatorConfig (AndroidUtils.ts lines 1038-1096) applied
to an already-read config, with the resolved SDK root location (or none)
as input.  An empty config is left alone and nothing is written (the
result none); otherwise the returned mapping is the one handed to
writeEmulatorConfig: the two network fields lower-cased when present and
nonempty, the fixed hardware flags forced, and, whenever hw.device.name is
present and nonempty, the skin fields set, with hw.device.name remapped
for the two pixel profiles and used unchanged otherwise. -/
def updateEmulatorConfig (sdkRootLocation : Option Str) (config : ConfigMap) :
    Option ConfigMap :=
  if config.length = 0 then none
  else
    let config := updateNetworkField networkLatencyKey config
    let config := updateNetworkField networkSpeedKey config
    let config := mapSet config ("hw.keyboard".toList) ("yes".toList)
    let config := mapSet config ("hw.gpu.mode".toList) ("auto".toList)
    let config := mapSet config ("hw.gpu.enabled".toList) ("yes".toList)
    let skinName := (mapGet config hwDeviceNameKey).getD []
    if skinName.isEmpty then some config
    else
      let skinName :=
        if skinName == "pixel".toList then "pixel_silver".toList
        else if skinName == "pixel_xl".toList then "pixel_xl_silver".toList
        else skinName
      let config := mapSet config skinNameKey skinName
      let config := mapSet config skinPathKey
        ((sdkRootLocation.getD []) ++ "/skins/".toList ++ skinName)
      let config := mapSet config ("skin.dynamic".toList) ("yes".toList)
      let config := mapSet config ("showDeviceFrame".toList) ("yes".toList)
      some config

/-- Concrete attempt outcome whose stdout carries the error marker, used to
exercise the retry model. -/
def attemptA : AdbAttempt := ⟨none, [], "error: A".toList⟩

/-- Concrete attempt outcome with a different error-marked stdout. -/
def attemptB : AdbAttempt := ⟨none, [], "error: B".toList⟩

/-- A run whose first attempt yields attemptA and all later attempts
attemptB. -/
def attemptsAB : Nat → AdbAttempt := fun j => if j = 0 then attemptA else attemptB

/-- An attempt that always reports the error marker. -/
def failingAttempt : AdbAttempt := ⟨none, [], "error: device offline".toList⟩

/-- An attempt whose error marker spans the stderr/stdout boundary: plain
concatenation of the streams contains the marker, the code's
newline-separated buffer does not. -/
def boundaryAttempt : AdbAttempt := ⟨none, "ERRO".toList, "R: x".toList⟩

/-- A run that fails once (a rejected execution whose error text carries the
marker) and then succeeds. -/
def mixedAttempts : Nat → AdbAttempt := fun j =>
  if j = 0 then ⟨some ("error: no devices found".toList), [], []⟩
  else ⟨none, [], "List of devices attached".toList⟩

/-- Sample configuration: minimum runtime 26, one architecture, one image
flavour. -/
def cfgSample : AndroidConfig :=
  { minSupportedRuntime := ⟨26, none, none⟩
    supportedArchitectures := ["x86_64".toList]
    supportedImages := ["google_apis".toList] }

/-- Sample platform package android-28, with no matching system image
installed. -/
def pkg28 : AndroidPackage :=
  ⟨"platforms;android-28".toList, ⟨28, none, none⟩,
    "Android SDK Platform 28".toList, "android-28".toList⟩

/-- Sample platform package android-30, with a matching system image
installed. -/
def pkg30 : AndroidPackage :=
  ⟨"platforms;android-30".toList, ⟨30, none, none⟩,
    "Android SDK Platform 30".toList, "android-30".toList⟩

/-- Sample installed system image for android-30. -/
def img30 : AndroidPackage :=
  ⟨"system-images;android-30;google_apis;x86_64".toList, ⟨30, none, none⟩,
    "Google APIs Intel x86_64 Atom System Image".toList, "android-30".toList⟩

/-- Sample inventory holding the two platforms and the one system image. -/
def invSample : AndroidPackages := ⟨[pkg28, pkg30], [img30], []⟩

/-- Modelled from the words of claim C7 ("matches case-insensitively and
separator-insensitively"): equality of the lower-cased display forms.
Used only to compare the claim's wording with the code's matching. -/
def matchesCaseSeparatorInsensitive (a b : Str) : Bool :=
  toLowerStr (displayNameChars a) == toLowerStr (displayNameChars b)

/-- Sample virtual device on API level 30. -/
def devSample : AndroidVirtualDevice :=
  ⟨"Pixel_XL".toList, "Google APIs".toList, ⟨30, none, none⟩⟩

/-- Sample startEmulator environment: the AVD resolves, is already running
on port 5554, and is system-writable. -/
def startEnvSample : StartEnv :=
  { resolved := some ("Pixel_XL".toList)
    hasPort := some 5554
    writableCheck := fun _ => true
    nextPort := 5556
    waitBootCmd := "wait-for-device shell check-boot".toList
    waitPowerOffCmd := "wait-until-device-gone".toList }

/-- Sample config whose device profile is not one of the two remapped
profiles. -/
def cfgPixelC : ConfigMap := [(hwDeviceNameKey, "pixel_c".toList)]

/-- Sample two-entry config mapping for the round-trip scenario. -/
def cfgAB : ConfigMap :=
  [("a".toList, "1".toList), ("b".toList, "2".toList)]

/- ------------------------------------------------------------------ -/
/- Theorems.                                                           -/
/- ------------------------------------------------------------------ -/

/-- The nonemptiness conjunct in the failure test is redundant: the test is
equivalent to the marker search alone. -/
theorem attemptFails_eq (a : AdbAttempt) :
    attemptFails a = containsSubstr errorMarker (toLowerStr (attemptBuffer a)) := by
  unfold attemptFails
  cases h : attemptBuffer a with
  | nil =>
    simp only [h, List.isEmpty_nil, Bool.not_true, Bool.false_and, toLowerStr, List.map_nil]
    decide
  | cons x xs => simp

/-- When every attempt from index i through i+r fails, the loop runs all
r+1 attempts and rejects with the buffer of the final attempt. -/
theorem adbRetryLoop_all_fail (att : Nat → AdbAttempt) :
    ∀ (r i : Nat), (∀ j, j ≤ r → attemptFails (att (i + j)) = true) →
      adbRetryLoop att i r = (r + 1, .error (attemptBuffer (att (i + r)))) := by
  intro r
  induction r with
  | zero =>
    intro i h
    have h0 := h 0 (Nat.le_refl 0)
    rw [Nat.add_zero] at h0
    simp [adbRetryLoop, h0]
  | succ r ih =>
    intro i h
    have h0 := h 0 (Nat.zero_le _)
    rw [Nat.add_zero] at h0
    have hrest := ih (i + 1) (fun j hj => by
      have hx := h (j + 1) (by omega)
      rwa [show i + (j + 1) = i + 1 + j from by omega] at hx)
    rw [show i + 1 + r = i + (r + 1) from by omega] at hrest
    simp [adbRetryLoop, h0, hrest]

/-- When the first k attempts fail and attempt k succeeds (k within the
retry budget), the loop runs exactly k+1 attempts and resolves with the
stdout of attempt k. -/
theorem adbRetryLoop_first_success (att : Nat → AdbAttempt) :
    ∀ (k r i : Nat), k ≤ r →
      (∀ j, j < k → attemptFails (att (i + j)) = true) →
      attemptFails (att (i + k)) = false →
      adbRetryLoop att i r = (k + 1, .ok (att (i + k)).stdout) := by
  intro k
  induction k with
  | zero =>
    intro r i _ _ hsucc
    rw [Nat.add_zero] at hsucc
    cases r with
    | zero => simp [adbRetryLoop, hsucc]
    | succ r => simp [adbRetryLoop, hsucc]
  | succ k ih =>
    intro r i hkr hfail hsucc
    cases r with
    | zero => omega
    | succ r =>
      have h0 := hfail 0 (Nat.succ_pos _)
      rw [Nat.add_zero] at h0
      have hrest := ih r (i + 1) (by omega)
        (fun j hj => by
          have hx := hfail (j + 1) (by omega)
          rwa [show i + (j + 1) = i + 1 + j from by omega] at hx)
        (by rwa [show i + 1 + k = i + (k + 1) from by omega])
      rw [show i + 1 + k = i + (k + 1) from by omega] at hrest
      simp [adbRetryLoop, h0, hrest]

/-- C1 (amended): when every one of the n+1 attempts' combined outputs
contains the error marker, executeAdbCommandWithRetry executes exactly
n+1 attempts and rejects, and the rejection's error detail is the
combined output of the final attempt (the attempt outputs are not
aggregated across attempts: the buffer is overwritten on every
iteration). -/
theorem C1_retry_exhaustion (att : Nat → AdbAttempt) (n : Nat)
    (h : ∀ j, j ≤ n →
      containsSubstr errorMarker (toLowerStr (attemptBuffer (att j))) = true) :
    executeAdbCommandWithRetry att n = (n + 1, .error (attemptBuffer (att n))) := by
  have hall := adbRetryLoop_all_fail att n 0 (fun j hj => by
    rw [Nat.zero_add, attemptFails_eq]
    exact h j hj)
  rw [executeAdbCommandWithRetry, hall, Nat.zero_add]

/-- C1 witness: three attempts, all failing, reject with the final buffer. -/
theorem C1_retry_exhaustion_witness :
    executeAdbCommandWithRetry (fun _ => failingAttempt) 2 =
      (3, .error (attemptBuffer failingAttempt)) :=
  C1_retry_exhaustion (fun _ => failingAttempt) 2 (by decide)

/-- C1 counterexample: with retry count 1 and two differing failing
attempts, the call runs 2 attempts and rejects, but the rejection's
detail is only the second attempt's output and does not contain the first
attempt's output, contradicting the claim that the error detail contains
the aggregated output of all attempts. -/
theorem C1_counterexample :
    executeAdbCommandWithRetry attemptsAB 1 = (2, .error (attemptBuffer attemptB)) ∧
    containsSubstr ("error: A".toList) (attemptBuffer attemptB) = false :=
  ⟨rfl, by decide⟩

/-- C2 (amended): an attempt is treated as a failure exactly when the
buffer obtained from the error text followed by the newline-prefixed
nonempty stderr and newline-prefixed nonempty stdout contains the
substring error: case-insensitively, regardless of the process's exit
status; the call resolves with the stdout of the first attempt whose
buffer lacks the marker, verbatim. -/
theorem C2_first_success (att : Nat → AdbAttempt) (n k : Nat) (hk : k ≤ n)
    (hfail : ∀ j, j < k →
      containsSubstr errorMarker (toLowerStr (attemptBuffer (att j))) = true)
    (hsucc : containsSubstr errorMarker (toLowerStr (attemptBuffer (att k))) = false) :
    executeAdbCommandWithRetry att n = (k + 1, .ok (att k).stdout) := by
  have hrun := adbRetryLoop_first_success att k n 0 hk
    (fun j hj => by rw [Nat.zero_add, attemptFails_eq]; exact hfail j hj)
    (by rw [Nat.zero_add, attemptFails_eq]; exact hsucc)
  rw [executeAdbCommandWithRetry, hrun, Nat.zero_add]

/-- C2 witness: a rejected first execution whose error text carries the
marker, then a clean second attempt whose stdout is returned verbatim. -/
theorem C2_first_success_witness :
    executeAdbCommandWithRetry mixedAttempts 2 =
      (2, .ok ("List of devices attached".toList)) :=
  C2_first_success mixedAttempts 2 1 (by decide) (by decide) (by decide)

/-- C2 counterexample: for an attempt with stderr ERRO and stdout R: x, the
plain concatenation of error text, stderr and stdout contains error:
case-insensitively, so the claim requires the attempt to be treated as a
failure; the code inserts a newline between the streams, finds no marker,
and succeeds, returning the stdout. -/
theorem C2_counterexample :
    containsSubstr errorMarker (toLowerStr (specPlainBuffer boundaryAttempt)) = true ∧
    executeAdbCommandWithRetry (fun _ => boundaryAttempt) 0 =
      (1, .ok ("R: x".toList)) :=
  ⟨by decide, rfl⟩

/-- C3 (code bug): the spec requires max(active)+2, but the comparator-less
JavaScript sort orders the ports as decimal strings, so for active ports
[5554, 10000] the code returns 5556 rather than 10002.  The in-range
behaviour of the claim (ports {5554, 5556} give 5558; no ports give the
default) is also evaluated. -/
theorem C3_code_bug :
    getNextAvailableAdbPort [5554, 10000] 5554 = 5556 ∧
    getNextAvailableAdbPort [5554, 5556] 5554 = 5558 ∧
    getNextAvailableAdbPort [] 5554 = 5554 ∧
    (5556 : Nat) ≠ 10000 + 2 := by
  refine ⟨rfl, rfl, rfl, by decide⟩

/-- C10: fetchEmulators never rejects: for every outcome of the listing
command and every (possibly throwing) parser it resolves, and it resolves
with the empty device list whenever the listing command rejects or
produces empty output. -/
theorem C10_never_rejects {α : Type} (parse : Str → Except Str (List α))
    (cmd : Except Str CmdResult) (r : CmdResult) (e : Str)
    (hr : r.stdout = []) :
    (∃ devices, fetchEmulators cmd parse = .ok devices) ∧
    fetchEmulators (α := α) (.error e) parse = .ok [] ∧
    fetchEmulators (.ok r) parse = .ok [] := by
  refine ⟨?_, rfl, ?_⟩
  · unfold fetchEmulators
    rcases cmd with e | res
    · exact ⟨[], rfl⟩
    · cases hres : res.stdout.isEmpty
      · cases hp : parse res.stdout with
        | error err => exact ⟨[], by simp [hres, hp]⟩
        | ok ds => exact ⟨ds, by simp [hres, hp]⟩
      · exact ⟨[], by simp [hres]⟩
  · unfold fetchEmulators
    simp [hr]

/-- C10 witness: a rejecting command, a successful listing, and an empty
listing, with a parser that itself throws. -/
theorem C10_never_rejects_witness :
    (∃ devices, fetchEmulators (α := Nat)
        (.ok ⟨"avd text".toList, []⟩)
        (fun _ => .error ("parse failure".toList)) = .ok devices) ∧
    fetchEmulators (α := Nat) (.error ("spawn failed".toList))
        (fun _ => .error ("parse failure".toList)) = .ok [] ∧
    fetchEmulators (α := Nat) (.ok ⟨[], ("warning".toList)⟩)
        (fun _ => .error ("parse failure".toList)) = .ok [] :=
  C10_never_rejects (fun _ => .error ("parse failure".toList))
    (.ok ⟨"avd text".toList, []⟩) ⟨[], ("warning".toList)⟩
    ("spawn failed".toList) rfl

/-- compare is antisymmetric under negation. -/
theorem Version.compare_swap (a b : Version) :
    Version.compare a b = -Version.compare b a := by
  unfold Version.compare
  split_ifs <;> omega

/-- compare is nonnegative exactly when the left version is at least the
right one in the lexicographic order with missing components read as
zero. -/
theorem Version.compare_nonneg_iff (a b : Version) :
    0 ≤ Version.compare a b ↔
      (b.major < a.major ∨ (b.major = a.major ∧
        (b.minor.getD 0 < a.minor.getD 0 ∨ (b.minor.getD 0 = a.minor.getD 0 ∧
          b.patch.getD 0 ≤ a.patch.getD 0)))) := by
  unfold Version.compare
  split_ifs <;> omega

/-- compare vanishes exactly when all three zero-padded components agree. -/
theorem Version.compare_eq_zero_iff (a b : Version) :
    Version.compare a b = 0 ↔
      (a.major = b.major ∧ a.minor.getD 0 = b.minor.getD 0 ∧
        a.patch.getD 0 = b.patch.getD 0) := by
  unfold Version.compare
  split_ifs <;> (try simp only [false_iff, true_iff]) <;> omega

/-- compare of a version with itself is zero. -/
theorem Version.compare_self (a : Version) : Version.compare a a = 0 := by
  unfold Version.compare
  split_ifs <;> (try simp only [false_iff, true_iff]) <;> omega

instance : IsTotal AndroidPackage pkgGE :=
  ⟨fun a b => by
    show 0 ≤ Version.compare a.version b.version ∨
      0 ≤ Version.compare b.version a.version
    rw [Version.compare_nonneg_iff, Version.compare_nonneg_iff]
    omega⟩

instance : IsTrans AndroidPackage pkgGE :=
  ⟨fun a b c hab hbc => by
    have hab' : 0 ≤ Version.compare a.version b.version := hab
    have hbc' : 0 ≤ Version.compare b.version c.version := hbc
    show 0 ≤ Version.compare a.version c.version
    rw [Version.compare_nonneg_iff] at hab' hbc' ⊢
    omega⟩

/-- Filtering an ordered insertion by a predicate that selects only
mutually-dominating elements keeps the inserted element in front of the
selected ones. -/
theorem filter_orderedInsert (r : AndroidPackage → AndroidPackage → Prop)
    [DecidableRel r] (f : AndroidPackage → Bool) (a : AndroidPackage)
    (hfa : ∀ y, f a = true → f y = true → r a y) :
    ∀ s : List AndroidPackage,
      (s.orderedInsert r a).filter f =
        if f a then a :: s.filter f else s.filter f := by
  intro s
  induction s with
  | nil =>
    cases hfa2 : f a <;> simp [List.orderedInsert, List.filter_cons, hfa2]
  | cons y s ih =>
    by_cases hray : r a y
    · rw [List.orderedInsert, if_pos hray]
      cases hfa2 : f a <;> simp [List.filter_cons, hfa2]
    · rw [List.orderedInsert, if_neg hray]
      cases hfa2 : f a
      · rw [if_neg (by simp [hfa2])] at ih
        rw [if_neg (by simp)]
        simp only [List.filter_cons, ih]
      · have hfy : f y = false := by
          cases hfy : f y
          · rfl
          · exact absurd (hfa y hfa2 hfy) hray
        rw [if_pos hfa2] at ih
        rw [if_pos rfl]
        simp [List.filter_cons, hfy, ih]

/-- Stability of insertion sort: filtering to a class of mutually-dominating
elements is unchanged by the sort. -/
theorem filter_insertionSort (r : AndroidPackage → AndroidPackage → Prop)
    [DecidableRel r] (f : AndroidPackage → Bool)
    (hf : ∀ a y, f a = true → f y = true → r a y) :
    ∀ l : List AndroidPackage, (l.insertionSort r).filter f = l.filter f := by
  intro l
  induction l with
  | nil => rfl
  | cons a l ih =>
    rw [List.insertionSort, filter_orderedInsert r f a (fun y => hf a y)]
    cases hfa : f a <;> simp [List.filter_cons, hfa, ih]

/-- C4: over any fixed inventory with at least one candidate, the
candidates (platform packages at least the minimum runtime that have a
matching emulator image) are returned sorted descending by version with
ties keeping original relative order (a stable sort); with no apiLevel the
highest-versioned candidate is returned; with an apiLevel the candidates
are restricted to those whose version is the same, rejecting when none
remain. -/
theorem C4_package_resolution (cfg : AndroidConfig) (inv : AndroidPackages)
    (hne : inv.isEmpty = false) (hcand : apiCandidates cfg inv ≠ []) :
    fetchAllAvailableApiPackages true cfg inv = .ok (sortedCandidates cfg inv) ∧
    (sortedCandidates cfg inv).Perm (apiCandidates cfg inv) ∧
    List.Sorted pkgGE (sortedCandidates cfg inv) ∧
    (∀ x : AndroidPackage,
      (sortedCandidates cfg inv).filter
          (fun q => Version.compare q.version x.version == 0) =
        (apiCandidates cfg inv).filter
          (fun q => Version.compare q.version x.version == 0)) ∧
    (∃ best rest, sortedCandidates cfg inv = best :: rest ∧
      fetchSupportedAndroidAPIPackage none cfg inv = .ok best ∧
      best ∈ apiCandidates cfg inv ∧
      ∀ q ∈ apiCandidates cfg inv, 0 ≤ Version.compare best.version q.version) ∧
    (∀ lv : Version,
      fetchSupportedAndroidAPIPackage (some lv) cfg inv =
        (match (sortedCandidates cfg inv).filter
            (fun pkg => pkg.version.same lv) with
         | [] => .error .noMatchForApiLevel
         | pkg :: _ => .ok pkg) ∧
      ((∀ q ∈ apiCandidates cfg inv, q.version.same lv = false) →
        fetchSupportedAndroidAPIPackage (some lv) cfg inv =
          .error .noMatchForApiLevel)) := by
  have hperm : (sortedCandidates cfg inv).Perm (apiCandidates cfg inv) :=
    List.perm_insertionSort pkgGE (apiCandidates cfg inv)
  have hmp : (inv.platforms.filter fun pkg =>
      pkg.version.sameOrNewer cfg.minSupportedRuntime) ≠ [] := by
    intro h0
    apply hcand
    unfold apiCandidates
    rw [h0]
    rfl
  have hlen : ¬((inv.platforms.filter fun pkg =>
      pkg.version.sameOrNewer cfg.minSupportedRuntime).length < 1) := by
    have := List.length_pos.mpr hmp
    omega
  have hA : fetchAllAvailableApiPackages true cfg inv =
      .ok (sortedCandidates cfg inv) := by
    unfold fetchAllAvailableApiPackages sortedCandidates apiCandidates
    rw [hne]
    simp [hlen]
  have hsne : sortedCandidates cfg inv ≠ [] := by
    intro h0
    rw [h0] at hperm
    exact hcand (hperm.symm.eq_nil)
  obtain ⟨best, rest, hbr⟩ : ∃ b r, sortedCandidates cfg inv = b :: r := by
    cases h : sortedCandidates cfg inv with
    | nil => exact absurd h hsne
    | cons b r => exact ⟨b, r, rfl⟩
  have hsorted : List.Sorted pkgGE (sortedCandidates cfg inv) :=
    List.sorted_insertionSort pkgGE (apiCandidates cfg inv)
  refine ⟨hA, hperm, hsorted, ?_, ⟨best, rest, hbr, ?_, ?_, ?_⟩, ?_⟩
  · intro x
    apply filter_insertionSort
    intro a y ha hy
    have h1 := (Version.compare_eq_zero_iff _ _).mp (beq_iff_eq.mp ha)
    have h2 := (Version.compare_eq_zero_iff _ _).mp (beq_iff_eq.mp hy)
    show 0 ≤ Version.compare a.version y.version
    rw [Version.compare_nonneg_iff]
    omega
  · simp [fetchSupportedAndroidAPIPackage, hA, hbr]
  · refine hperm.subset ?_
    rw [hbr]
    exact List.mem_cons_self best rest
  · intro q hq
    have hq' : q ∈ sortedCandidates cfg inv := hperm.mem_iff.mpr hq
    rw [hbr] at hq' hsorted
    rcases List.mem_cons.mp hq' with hqb | hqr
    · rw [hqb]
      rw [Version.compare_self]
    · exact (List.sorted_cons.mp hsorted).1 q hqr
  · intro lv
    constructor
    · simp [fetchSupportedAndroidAPIPackage, hA]
    · intro hnone
      have hfilt : (sortedCandidates cfg inv).filter
          (fun pkg => pkg.version.same lv) = [] := by
        rw [List.filter_eq_nil_iff]
        intro a ha
        have hmem : a ∈ apiCandidates cfg inv := hperm.subset ha
        simp [hnone a hmem]
      simp [fetchSupportedAndroidAPIPackage, hA, hfilt]

/-- C4 witness: the theorem applied to the sample inventory, whose
candidate list is [pkg30]. -/
theorem C4_package_resolution_witness :
    fetchAllAvailableApiPackages true cfgSample invSample =
      .ok (sortedCandidates cfgSample invSample) ∧
    (sortedCandidates cfgSample invSample).Perm (apiCandidates cfgSample invSample) ∧
    List.Sorted pkgGE (sortedCandidates cfgSample invSample) ∧
    (∀ x : AndroidPackage,
      (sortedCandidates cfgSample invSample).filter
          (fun q => Version.compare q.version x.version == 0) =
        (apiCandidates cfgSample invSample).filter
          (fun q => Version.compare q.version x.version == 0)) ∧
    (∃ best rest, sortedCandidates cfgSample invSample = best :: rest ∧
      fetchSupportedAndroidAPIPackage none cfgSample invSample = .ok best ∧
      best ∈ apiCandidates cfgSample invSample ∧
      ∀ q ∈ apiCandidates cfgSample invSample,
        0 ≤ Version.compare best.version q.version) ∧
    (∀ lv : Version,
      fetchSupportedAndroidAPIPackage (some lv) cfgSample invSample =
        (match (sortedCandidates cfgSample invSample).filter
            (fun pkg => pkg.version.same lv) with
         | [] => .error .noMatchForApiLevel
         | pkg :: _ => .ok pkg) ∧
      ((∀ q ∈ apiCandidates cfgSample invSample, q.version.same lv = false) →
        fetchSupportedAndroidAPIPackage (some lv) cfgSample invSample =
          .error .noMatchForApiLevel)) :=
  C4_package_resolution cfgSample invSample rfl (by decide)

/-- C5: for a device of API level at least 29, mounting a writable system
with verification and verity both already disabled issues (after the
writable start) root, the two avbctl queries, then remount, with zero
reboot commands; with both still enabled it issues root, the queries,
disable-verification, disable-verity, reboot (with its boot wait), root
again, then remount.  Both cases return the port reported by the writable
start. -/
theorem C5_mount_writable_system (emulatorName : Str) (port : Nat)
    (e : AndroidVirtualDevice) (verificationOut verityOut waitBootCmd : Str)
    (h29 : e.apiLevel.sameOrNewer v29 = true) :
    (containsSubstr disabledMarker verificationOut = true →
      containsSubstr disabledMarker verityOut = true →
      mountAsRootWritableSystem emulatorName port (some e)
          verificationOut verityOut waitBootCmd =
        ([.startEmu emulatorName true true, .adb rootCmd, .adb getVerificationCmd,
          .adb getVerityCmd, .adb remountCmd], .ok port) ∧
      DevCmd.adb rebootCmd ∉
        (mountAsRootWritableSystem emulatorName port (some e)
          verificationOut verityOut waitBootCmd).1) ∧
    (containsSubstr disabledMarker verificationOut = false →
      containsSubstr disabledMarker verityOut = false →
      mountAsRootWritableSystem emulatorName port (some e)
          verificationOut verityOut waitBootCmd =
        ([.startEmu emulatorName true true, .adb rootCmd, .adb getVerificationCmd,
          .adb getVerityCmd, .adb disableVerificationCmd, .adb disableVerityCmd,
          .adb rebootCmd, .adb waitBootCmd, .adb rootCmd, .adb remountCmd],
          .ok port)) := by
  constructor
  · intro hvd hvt
    have htr : mountAsRootWritableSystem emulatorName port (some e)
        verificationOut verityOut waitBootCmd =
        ([.startEmu emulatorName true true, .adb rootCmd, .adb getVerificationCmd,
          .adb getVerityCmd, .adb remountCmd], .ok port) := by
      simp [mountAsRootWritableSystem, h29, hvd, hvt]
    refine ⟨htr, ?_⟩
    rw [htr]
    intro hmem
    simp only [List.mem_cons, List.not_mem_nil, or_false] at hmem
    rcases hmem with h | h | h | h | h
    · exact DevCmd.noConfusion h
    · exact absurd h (by decide)
    · exact absurd h (by decide)
    · exact absurd h (by decide)
    · exact absurd h (by decide)
  · intro hvd hvt
    simp [mountAsRootWritableSystem, h29, hvd, hvt]

/-- C5 witness: the theorem applied to the sample API-30 device on port
5554, in both the already-disabled and the still-enabled scenario. -/
theorem C5_mount_writable_system_witness :
    (containsSubstr disabledMarker ("verification is disabled".toList) = true →
      containsSubstr disabledMarker ("verification is disabled".toList) = true →
      mountAsRootWritableSystem ("Pixel_XL".toList) 5554 (some devSample)
          ("verification is disabled".toList) ("verification is disabled".toList)
          ("wait-for-device shell check-boot".toList) =
        ([.startEmu ("Pixel_XL".toList) true true, .adb rootCmd,
          .adb getVerificationCmd, .adb getVerityCmd, .adb remountCmd],
          .ok 5554) ∧
      DevCmd.adb rebootCmd ∉
        (mountAsRootWritableSystem ("Pixel_XL".toList) 5554 (some devSample)
          ("verification is disabled".toList) ("verification is disabled".toList)
          ("wait-for-device shell check-boot".toList)).1) ∧
    (containsSubstr disabledMarker ("verification is disabled".toList) = false →
      containsSubstr disabledMarker ("verification is disabled".toList) = false →
      mountAsRootWritableSystem ("Pixel_XL".toList) 5554 (some devSample)
          ("verification is disabled".toList) ("verification is disabled".toList)
          ("wait-for-device shell check-boot".toList) =
        ([.startEmu ("Pixel_XL".toList) true true, .adb rootCmd,
          .adb getVerificationCmd, .adb getVerityCmd, .adb disableVerificationCmd,
          .adb disableVerityCmd, .adb rebootCmd,
          .adb ("wait-for-device shell check-boot".toList), .adb rootCmd,
          .adb remountCmd], .ok 5554)) :=
  C5_mount_writable_system ("Pixel_XL".toList) 5554 devSample
    ("verification is disabled".toList) ("verification is disabled".toList)
    ("wait-for-device shell check-boot".toList) (by decide)

/-- C6: when the emulator is already running on a nonzero port, and
writable is not requested or the instance is already system-writable,
startEmulator returns that port having issued only the writable check
(in particular no stop command), so a second identical call returns the
same port again; the stop command appears in the trace exactly when
writable is requested and the instance is not writable, in which case the
device is stopped and relaunched on the same port. -/
theorem C6_idempotent_fast_path (emulatorName r : Str)
    (writable waitForBoot : Bool) (env : StartEnv) (p : Nat)
    (hres : env.resolved = some r) (hport : env.hasPort = some p)
    (hp : p ≠ 0) :
    ((writable = false ∨ env.writableCheck p = true) →
      startEmulator emulatorName writable waitForBoot env =
        ([.adb avdPathCmd], .ok p)) ∧
    (DevCmd.adb stopCmd ∈ (startEmulator emulatorName writable waitForBoot env).1 ↔
      (writable = true ∧ env.writableCheck p = false)) ∧
    (writable = true → env.writableCheck p = false →
      startEmulator emulatorName writable waitForBoot env =
        ([.adb avdPathCmd, .adb stopCmd, .exec env.waitPowerOffCmd,
            .spawn r p true] ++
          (if waitForBoot then [.adb env.waitBootCmd] else []), .ok p)) := by
  have hmain : startEmulator emulatorName writable waitForBoot env =
      (if !writable || env.writableCheck p then ([.adb avdPathCmd], .ok p)
       else ([.adb avdPathCmd, .adb stopCmd, .exec env.waitPowerOffCmd,
            .spawn r p writable] ++
          (if waitForBoot then [.adb env.waitBootCmd] else []), .ok p)) := by
    unfold startEmulator
    rw [hres, hport]
    simp [hp]
  refine ⟨?_, ?_, ?_⟩
  · intro h1
    rw [hmain]
    rcases h1 with hw | hw <;> simp [hw]
  · rw [hmain]
    cases hwrit : writable <;> cases hchk : env.writableCheck p <;>
      simp [hwrit, hchk] <;> decide
  · intro hwrit hchk
    rw [hmain, hwrit, hchk]
    simp

/-- C6 witness: the theorem applied to the sample environment (running on
port 5554, writable), requesting a writable boot-waited start. -/
theorem C6_idempotent_fast_path_witness :
    ((true = false ∨ startEnvSample.writableCheck 5554 = true) →
      startEmulator ("Pixel XL".toList) true true startEnvSample =
        ([.adb avdPathCmd], .ok 5554)) ∧
    (DevCmd.adb stopCmd ∈ (startEmulator ("Pixel XL".toList) true true startEnvSample).1 ↔
      (true = true ∧ startEnvSample.writableCheck 5554 = false)) ∧
    (true = true → startEnvSample.writableCheck 5554 = false →
      startEmulator ("Pixel XL".toList) true true startEnvSample =
        ([.adb avdPathCmd, .adb stopCmd, .exec startEnvSample.waitPowerOffCmd,
            .spawn ("Pixel_XL".toList) 5554 true] ++
          (if true then [.adb startEnvSample.waitBootCmd] else []), .ok 5554)) :=
  C6_idempotent_fast_path ("Pixel XL".toList) ("Pixel_XL".toList) true true
    startEnvSample 5554 rfl rfl (by decide)

/-- resolveEmulatorImage is the first matching listed AVD, trimmed. -/
theorem resolveEmulatorImage_eq_find (nm listing : Str) :
    resolveEmulatorImage nm listing =
      ((splitOnChar '\n' listing).find? fun avd =>
        avd == nm || displayNameChars avd == displayNameChars nm).map trimChars := by
  unfold resolveEmulatorImage
  cases hf : (splitOnChar '\n' listing).find? fun avd =>
      avd == nm || displayNameChars avd == displayNameChars nm <;>
    simp [hf]

/-- C7 (amended): resolution succeeds exactly when some listed AVD matches
separator-insensitively (underscores and hyphens read as spaces, then
trimmed) but case-sensitively; two names with the same display form
resolve identically, but names differing in letter case do not match. -/
theorem C7_resolve_separator_insensitive (emulatorName listingStdout n1 n2 : Str)
    (hd : displayNameChars n1 = displayNameChars n2) :
    ((resolveEmulatorImage emulatorName listingStdout).isSome = true ↔
      ∃ avd ∈ splitOnChar '\n' listingStdout,
        displayNameChars avd = displayNameChars emulatorName) ∧
    resolveEmulatorImage n1 listingStdout = resolveEmulatorImage n2 listingStdout := by
  constructor
  · rw [resolveEmulatorImage_eq_find, Option.isSome_map']
    constructor
    · intro h
      obtain ⟨avd, hmem, hpred⟩ := List.find?_isSome.mp h
      refine ⟨avd, hmem, ?_⟩
      rcases (Bool.or_eq_true _ _).mp hpred with h1 | h1
      · exact congrArg displayNameChars (beq_iff_eq.mp h1)
      · exact beq_iff_eq.mp h1
    · rintro ⟨avd, hmem, hdisp⟩
      exact List.find?_isSome.mpr ⟨avd, hmem, by simp [hdisp]⟩
  · rw [resolveEmulatorImage_eq_find, resolveEmulatorImage_eq_find]
    have hpred : (fun avd : Str =>
        avd == n1 || displayNameChars avd == displayNameChars n1) =
        (fun avd : Str =>
          avd == n2 || displayNameChars avd == displayNameChars n2) := by
      funext avd
      rw [Bool.eq_iff_iff]
      simp only [Bool.or_eq_true, beq_iff_eq]
      constructor
      · rintro (rfl | h)
        · exact Or.inr hd
        · exact Or.inr (h.trans hd)
      · rintro (rfl | h)
        · exact Or.inr hd.symm
        · exact Or.inr (h.trans hd.symm)
    rw [hpred]

/-- C7 witness: Pixel_XL and Pixel-XL (with trailing blanks) share a
display form, and the display form Pixel XL occurs in the listing. -/
theorem C7_resolve_separator_insensitive_witness :
    ((resolveEmulatorImage ("Pixel_XL".toList) ("Nexus_5\nPixel XL".toList)).isSome = true ↔
      ∃ avd ∈ splitOnChar '\n' ("Nexus_5\nPixel XL".toList),
        displayNameChars avd = displayNameChars ("Pixel_XL".toList)) ∧
    resolveEmulatorImage ("Pixel_XL".toList) ("Nexus_5\nPixel XL".toList) =
      resolveEmulatorImage ("Pixel-XL  ".toList) ("Nexus_5\nPixel XL".toList) :=
  C7_resolve_separator_insensitive ("Pixel_XL".toList)
    ("Nexus_5\nPixel XL".toList) ("Pixel_XL".toList) ("Pixel-XL  ".toList)
    (by decide)

/-- C7 counterexample: the query pixel_xl matches the listed AVD Pixel_XL
case-insensitively and separator-insensitively, so the claim requires
resolution to succeed, but the code's comparisons are case-sensitive and
resolution returns undefined. -/
theorem C7_counterexample :
    matchesCaseSeparatorInsensitive ("pixel_xl".toList) ("Pixel_XL".toList) = true ∧
    (∃ avd ∈ splitOnChar '\n' ("Pixel_XL".toList),
      matchesCaseSeparatorInsensitive avd ("pixel_xl".toList) = true) ∧
    resolveEmulatorImage ("pixel_xl".toList) ("Pixel_XL".toList) = none := by
  refine ⟨by decide, ⟨"Pixel_XL".toList, by decide, by decide⟩, by decide⟩

/-- Setting a key makes it retrievable with the set value. -/
theorem mapGet_mapSet_self (m : ConfigMap) (k v : Str) :
    mapGet (mapSet m k v) k = some v := by
  induction m with
  | nil => simp [mapSet, mapGet, List.find?]
  | cons e rest ih =>
    cases hek : e.1 == k
    · have hne' : ¬((fun e : Str × Str => e.1 == k) e = true) := by simp [hek]
      simp only [mapSet, hek, Bool.false_eq_true, if_false, mapGet]
      rw [@List.find?_cons_of_neg _ (fun e : Str × Str => e.1 == k) e
        (mapSet rest k v) hne']
      exact ih
    · simp [mapSet, hek, mapGet, List.find?]

/-- Setting a key leaves every other key's value unchanged. -/
theorem mapGet_mapSet_ne (m : ConfigMap) (k v k' : Str) (hne : k' ≠ k) :
    mapGet (mapSet m k v) k' = mapGet m k' := by
  have hkk : (k == k') = false := beq_eq_false_iff_ne.mpr (Ne.symm hne)
  induction m with
  | nil => simp [mapSet, mapGet, List.find?, hkk]
  | cons e rest ih =>
    cases hek : e.1 == k
    · simp only [mapSet, hek, Bool.false_eq_true, if_false]
      cases hek' : e.1 == k'
      · have hne' : ¬((fun e : Str × Str => e.1 == k') e = true) := by simp [hek']
        simp only [mapGet]
        rw [@List.find?_cons_of_neg _ (fun e : Str × Str => e.1 == k') e
          (mapSet rest k v) hne',
          @List.find?_cons_of_neg _ (fun e : Str × Str => e.1 == k') e rest hne']
        exact ih
      · have hp : ((fun e : Str × Str => e.1 == k') e = true) := by simp [hek']
        simp only [mapGet]
        rw [@List.find?_cons_of_pos _ (fun e : Str × Str => e.1 == k') e
          (mapSet rest k v) hp,
          @List.find?_cons_of_pos _ (fun e : Str × Str => e.1 == k') e rest hp]
    · have he1 : e.1 = k := beq_iff_eq.mp hek
      have hn1 : ¬((fun e : Str × Str => e.1 == k') (k, v) = true) := by simp [hkk]
      have hn2 : ¬((fun e : Str × Str => e.1 == k') e = true) := by
        simp [he1, hkk]
      simp only [mapSet, hek, if_true, mapGet]
      rw [@List.find?_cons_of_neg _ (fun e : Str × Str => e.1 == k') (k, v)
        rest hn1,
        @List.find?_cons_of_neg _ (fun e : Str × Str => e.1 == k') e rest hn2]

/-- Normalising a network field leaves every other key's value unchanged. -/
theorem mapGet_updateNetworkField_ne (key : Str) (c : ConfigMap) (k' : Str)
    (h : k' ≠ key) :
    mapGet (updateNetworkField key c) k' = mapGet c k' := by
  unfold updateNetworkField
  cases hv : mapGet c key with
  | none => rfl
  | some v =>
    cases hve : v.isEmpty
    · simp [hve, mapGet_mapSet_ne _ _ _ _ h]
    · simp [hve]

/-- The network and hardware updates preceding the skin block leave every
key other than the five they touch unchanged. -/
theorem mapGet_after_hw_updates (config : ConfigMap) (k' : Str)
    (h1 : k' ≠ networkLatencyKey) (h2 : k' ≠ networkSpeedKey)
    (h3 : k' ≠ "hw.keyboard".toList) (h4 : k' ≠ "hw.gpu.mode".toList)
    (h5 : k' ≠ "hw.gpu.enabled".toList) :
    mapGet (mapSet (mapSet (mapSet
      (updateNetworkField networkSpeedKey
        (updateNetworkField networkLatencyKey config))
      ("hw.keyboard".toList) ("yes".toList))
      ("hw.gpu.mode".toList) ("auto".toList))
      ("hw.gpu.enabled".toList) ("yes".toList)) k' = mapGet config k' := by
  rw [mapGet_mapSet_ne _ _ _ _ h5, mapGet_mapSet_ne _ _ _ _ h4,
    mapGet_mapSet_ne _ _ _ _ h3, mapGet_updateNetworkField_ne _ _ _ h2,
    mapGet_updateNetworkField_ne _ _ _ h1]

/-- C8 (amended): updateEmulatorConfig writes a config whose skin name is
the profile name itself when hw.device.name is present, nonempty, and is
neither of the two remapped profiles; the two remappings only change which
value is used (pixel becomes pixel_silver, pixel_xl becomes
pixel_xl_silver); and the skin name is left untouched only when
hw.device.name is absent or empty. -/
theorem C8_skin_name_assignment (sdkRoot : Option Str) (config : ConfigMap)
    (hcfg : config ≠ []) :
    (∀ d : Str, mapGet config hwDeviceNameKey = some d → d ≠ [] →
      d ≠ "pixel".toList → d ≠ "pixel_xl".toList →
      ∃ m, updateEmulatorConfig sdkRoot config = some m ∧
        mapGet m skinNameKey = some d) ∧
    (mapGet config hwDeviceNameKey = some ("pixel".toList) →
      ∃ m, updateEmulatorConfig sdkRoot config = some m ∧
        mapGet m skinNameKey = some ("pixel_silver".toList)) ∧
    (mapGet config hwDeviceNameKey = some ("pixel_xl".toList) →
      ∃ m, updateEmulatorConfig sdkRoot config = some m ∧
        mapGet m skinNameKey = some ("pixel_xl_silver".toList)) ∧
    ((mapGet config hwDeviceNameKey = none ∨
        mapGet config hwDeviceNameKey = some []) →
      ∃ m, updateEmulatorConfig sdkRoot config = some m ∧
        mapGet m skinNameKey = mapGet config skinNameKey) := by
  have hlen : ¬(config.length = 0) := by
    simpa [List.length_eq_zero] using hcfg
  refine ⟨?_, ?_, ?_, ?_⟩
  · intro d hget hd hd1 hd2
    have h5 : mapGet (mapSet (mapSet (mapSet
        (updateNetworkField networkSpeedKey
          (updateNetworkField networkLatencyKey config))
        ("hw.keyboard".toList) ("yes".toList))
        ("hw.gpu.mode".toList) ("auto".toList))
        ("hw.gpu.enabled".toList) ("yes".toList)) hwDeviceNameKey = some d := by
      rw [mapGet_after_hw_updates config hwDeviceNameKey (by decide) (by decide)
        (by decide) (by decide) (by decide)]
      exact hget
    have hdE : d.isEmpty = false := by
      cases d
      · exact absurd rfl hd
      · rfl
    have hb1 : (d == "pixel".toList) = false := beq_eq_false_iff_ne.mpr hd1
    have hb2 : (d == "pixel_xl".toList) = false := beq_eq_false_iff_ne.mpr hd2
    unfold updateEmulatorConfig
    rw [if_neg hlen]
    simp only [h5, Option.getD_some, hdE, Bool.false_eq_true, if_false, hb1, hb2]
    refine ⟨_, rfl, ?_⟩
    rw [mapGet_mapSet_ne _ _ _ _ (by decide), mapGet_mapSet_ne _ _ _ _ (by decide),
      mapGet_mapSet_ne _ _ _ _ (by decide), mapGet_mapSet_self]
  · intro hget
    have h5 : mapGet (mapSet (mapSet (mapSet
        (updateNetworkField networkSpeedKey
          (updateNetworkField networkLatencyKey config))
        ("hw.keyboard".toList) ("yes".toList))
        ("hw.gpu.mode".toList) ("auto".toList))
        ("hw.gpu.enabled".toList) ("yes".toList)) hwDeviceNameKey =
        some ("pixel".toList) := by
      rw [mapGet_after_hw_updates config hwDeviceNameKey (by decide) (by decide)
        (by decide) (by decide) (by decide)]
      exact hget
    have hdE : (("pixel".toList : Str)).isEmpty = false := rfl
    have hb1 : (("pixel".toList : Str) == "pixel".toList) = true := by simp
    unfold updateEmulatorConfig
    rw [if_neg hlen]
    simp only [h5, Option.getD_some, hdE, Bool.false_eq_true, if_false, hb1,
      if_true]
    refine ⟨_, rfl, ?_⟩
    rw [mapGet_mapSet_ne _ _ _ _ (by decide), mapGet_mapSet_ne _ _ _ _ (by decide),
      mapGet_mapSet_ne _ _ _ _ (by decide), mapGet_mapSet_self]
  · intro hget
    have h5 : mapGet (mapSet (mapSet (mapSet
        (updateNetworkField networkSpeedKey
          (updateNetworkField networkLatencyKey config))
        ("hw.keyboard".toList) ("yes".toList))
        ("hw.gpu.mode".toList) ("auto".toList))
        ("hw.gpu.enabled".toList) ("yes".toList)) hwDeviceNameKey =
        some ("pixel_xl".toList) := by
      rw [mapGet_after_hw_updates config hwDeviceNameKey (by decide) (by decide)
        (by decide) (by decide) (by decide)]
      exact hget
    have hdE : (("pixel_xl".toList : Str)).isEmpty = false := rfl
    have hb1 : (("pixel_xl".toList : Str) == "pixel".toList) = false := by decide
    have hb2 : (("pixel_xl".toList : Str) == "pixel_xl".toList) = true := by simp
    unfold updateEmulatorConfig
    rw [if_neg hlen]
    simp only [h5, Option.getD_some, hdE, Bool.false_eq_true, if_false, hb1, hb2,
      if_true]
    refine ⟨_, rfl, ?_⟩
    rw [mapGet_mapSet_ne _ _ _ _ (by decide), mapGet_mapSet_ne _ _ _ _ (by decide),
      mapGet_mapSet_ne _ _ _ _ (by decide), mapGet_mapSet_self]
  · intro hget
    have hskin : mapGet (mapSet (mapSet (mapSet
        (updateNetworkField networkSpeedKey
          (updateNetworkField networkLatencyKey config))
        ("hw.keyboard".toList) ("yes".toList))
        ("hw.gpu.mode".toList) ("auto".toList))
        ("hw.gpu.enabled".toList) ("yes".toList)) skinNameKey =
        mapGet config skinNameKey :=
      mapGet_after_hw_updates config skinNameKey (by decide) (by decide)
        (by decide) (by decide) (by decide)
    have h5 : mapGet (mapSet (mapSet (mapSet
        (updateNetworkField networkSpeedKey
          (updateNetworkField networkLatencyKey config))
        ("hw.keyboard".toList) ("yes".toList))
        ("hw.gpu.mode".toList) ("auto".toList))
        ("hw.gpu.enabled".toList) ("yes".toList)) hwDeviceNameKey =
        mapGet config hwDeviceNameKey :=
      mapGet_after_hw_updates config hwDeviceNameKey (by decide) (by decide)
        (by decide) (by decide) (by decide)
    unfold updateEmulatorConfig
    rw [if_neg hlen]
    rcases hget with hget | hget
    · rw [hget] at h5
      simp only [h5, Option.getD_none, List.isEmpty_nil, if_true]
      exact ⟨_, rfl, hskin⟩
    · rw [hget] at h5
      simp only [h5, Option.getD_some, List.isEmpty_nil, if_true]
      exact ⟨_, rfl, hskin⟩

/-- C8 witness: the sample config with profile pixel_c (present, nonempty,
unmapped) gets skin.name set to pixel_c. -/
theorem C8_skin_name_assignment_witness :
    (∀ d : Str, mapGet cfgPixelC hwDeviceNameKey = some d → d ≠ [] →
      d ≠ "pixel".toList → d ≠ "pixel_xl".toList →
      ∃ m, updateEmulatorConfig none cfgPixelC = some m ∧
        mapGet m skinNameKey = some d) ∧
    (mapGet cfgPixelC hwDeviceNameKey = some ("pixel".toList) →
      ∃ m, updateEmulatorConfig none cfgPixelC = some m ∧
        mapGet m skinNameKey = some ("pixel_silver".toList)) ∧
    (mapGet cfgPixelC hwDeviceNameKey = some ("pixel_xl".toList) →
      ∃ m, updateEmulatorConfig none cfgPixelC = some m ∧
        mapGet m skinNameKey = some ("pixel_xl_silver".toList)) ∧
    ((mapGet cfgPixelC hwDeviceNameKey = none ∨
        mapGet cfgPixelC hwDeviceNameKey = some []) →
      ∃ m, updateEmulatorConfig none cfgPixelC = some m ∧
        mapGet m skinNameKey = mapGet cfgPixelC skinNameKey) :=
  C8_skin_name_assignment none cfgPixelC (by decide)

/-- C8 counterexample: with device profile pixel_c (not one of the two
remapped profiles), the written config has skin.name set to pixel_c — the
claim that the skin name is left unset for unmapped profiles is false. -/
theorem C8_counterexample :
    (updateEmulatorConfig none cfgPixelC).map (fun m => mapGet m skinNameKey) =
      some (some ("pixel_c".toList)) ∧
    (updateEmulatorConfig none cfgPixelC).map (fun m => mapGet m skinNameKey) ≠
      some none := by
  refine ⟨by decide, by decide⟩

/-- Splitting never yields the empty list of pieces. -/
theorem splitOnChar_ne_nil (c : Char) (s : Str) : splitOnChar c s ≠ [] := by
  cases s with
  | nil => simp [splitOnChar]
  | cons x xs =>
    rw [splitOnChar]
    cases h : splitOnChar c xs with
    | nil => cases hx : x == c <;> simp [hx]
    | cons p r => cases hx : x == c <;> simp [hx]

/-- A string free of the separator splits into itself. -/
theorem splitOnChar_of_not_mem (c : Char) (l : Str) (h : c ∉ l) :
    splitOnChar c l = [l] := by
  induction l with
  | nil => rfl
  | cons x xs ih =>
    have hx : (x == c) = false := by
      cases hxeq : x == c
      · rfl
      · exact absurd (by rw [beq_iff_eq.mp hxeq]; exact List.mem_cons_self c xs) h
    rw [splitOnChar, ih (fun hc => h (List.mem_cons_of_mem x hc))]
    simp [hx]

/-- Splitting at the first separator occurrence peels off the prefix. -/
theorem splitOnChar_append (c : Char) (l s : Str) (h : c ∉ l) :
    splitOnChar c (l ++ c :: s) = l :: splitOnChar c s := by
  induction l with
  | nil =>
    rw [List.nil_append, splitOnChar]
    cases hs : splitOnChar c s with
    | nil => exact absurd hs (splitOnChar_ne_nil c s)
    | cons p r => simp
  | cons x xs ih =>
    have hx : (x == c) = false := by
      cases hxeq : x == c
      · rfl
      · exact absurd (by rw [beq_iff_eq.mp hxeq]; exact List.mem_cons_self c _) h
    rw [List.cons_append, splitOnChar, ih (fun hc => h (List.mem_cons_of_mem x hc))]
    simp [hx]

/-- The write fold with an accumulator prefixes the accumulator. -/
theorem writeFoldAux (m : ConfigMap) :
    ∀ acc : Str,
      m.foldl (fun configString e => configString ++ e.1 ++ '=' :: e.2 ++ ['\n']) acc =
        acc ++ m.foldl
          (fun configString e => configString ++ e.1 ++ '=' :: e.2 ++ ['\n']) [] := by
  induction m with
  | nil =>
    intro acc
    simp
  | cons e m ih =>
    intro acc
    rw [List.foldl_cons, List.foldl_cons, ih, ih ([] ++ e.1 ++ '=' :: e.2 ++ ['\n'])]
    simp [List.append_assoc]

/-- Serialisation of a nonempty mapping: first line plus the rest. -/
theorem writeEmulatorConfigString_cons (e : Str × Str) (m : ConfigMap) :
    writeEmulatorConfigString (e :: m) =
      (e.1 ++ '=' :: e.2) ++ '\n' :: writeEmulatorConfigString m := by
  unfold writeEmulatorConfigString
  rw [List.foldl_cons, writeFoldAux]
  simp [List.append_assoc]

/-- Splitting the serialised mapping into lines yields one line per entry
followed by one empty trailing piece. -/
theorem splitLines_write (m : ConfigMap)
    (hclean : ∀ e ∈ m, ('\n' ∉ e.1 ∧ '\n' ∉ e.2)) :
    splitOnChar '\n' (writeEmulatorConfigString m) =
      m.map (fun e => e.1 ++ '=' :: e.2) ++ [[]] := by
  induction m with
  | nil => rfl
  | cons e m ih =>
    have he := hclean e (List.mem_cons_self e m)
    have hn : '\n' ∉ e.1 ++ '=' :: e.2 := by
      intro hmem
      rcases List.mem_append.mp hmem with h1 | h1
      · exact he.1 h1
      · rcases List.mem_cons.mp h1 with h2 | h2
        · exact absurd h2 (by decide)
        · exact he.2 h2
    rw [writeEmulatorConfigString_cons, splitOnChar_append _ _ _ hn,
      ih (fun f hf => hclean f (List.mem_cons_of_mem e hf))]
    simp

/-- A clean serialised line splits into exactly its key and value. -/
theorem splitOnChar_eq_pair (k v : Str) (hk : '=' ∉ k) (hv : '=' ∉ v) :
    splitOnChar '=' (k ++ '=' :: v) = [k, v] := by
  rw [splitOnChar_append _ _ _ hk, splitOnChar_of_not_mem _ _ hv]

/-- Setting a fresh key appends the entry. -/
theorem mapSet_eq_append (m : ConfigMap) (k v : Str)
    (h : ∀ e ∈ m, e.1 ≠ k) :
    mapSet m k v = m ++ [(k, v)] := by
  induction m with
  | nil => rfl
  | cons e rest ih =>
    have he : (e.1 == k) = false :=
      beq_eq_false_iff_ne.mpr (h e (List.mem_cons_self e rest))
    simp only [mapSet, he, Bool.false_eq_true, if_false, List.cons_append]
    rw [ih (fun f hf => h f (List.mem_cons_of_mem e hf))]

/-- Folding the parse step over the serialised lines of a clean mapping
with fresh, duplicate-free keys appends the mapping to the accumulator. -/
theorem readFold (m : ConfigMap) :
    ∀ acc : ConfigMap,
      (∀ e ∈ m, ∀ e' ∈ acc, e'.1 ≠ e.1) →
      ((m.map Prod.fst).Nodup) →
      (∀ e ∈ m, '=' ∉ e.1 ∧ '=' ∉ e.2) →
      (m.map (fun e : Str × Str => e.1 ++ '=' :: e.2) ++ [[]]).foldl
        readConfigLine acc = acc ++ m := by
  induction m with
  | nil =>
    intro acc _ _ _
    simp [readConfigLine, splitOnChar]
  | cons e m ih =>
    intro acc hfresh hnodup hclean
    have he := hclean e (List.mem_cons_self e m)
    have hline : splitOnChar '=' (e.1 ++ '=' :: e.2) = [e.1, e.2] :=
      splitOnChar_eq_pair _ _ he.1 he.2
    have hstep : readConfigLine acc (e.1 ++ '=' :: e.2) = mapSet acc e.1 e.2 := by
      unfold readConfigLine
      rw [hline]
    have hnodup2 : e.1 ∉ m.map Prod.fst ∧ (m.map Prod.fst).Nodup :=
      List.nodup_cons.mp (by simpa using hnodup)
    have hfresh' : ∀ f ∈ m, ∀ e' ∈ acc ++ [(e.1, e.2)], e'.1 ≠ f.1 := by
      intro f hf e' he'
      rcases List.mem_append.mp he' with h1 | h1
      · exact hfresh f (List.mem_cons_of_mem e hf) e' h1
      · have he2 : e' = (e.1, e.2) := by simpa using h1
        rw [he2]
        intro hef
        exact hnodup2.1 (hef ▸ List.mem_map_of_mem Prod.fst hf)
    rw [List.map_cons, List.cons_append, List.foldl_cons, hstep,
      mapSet_eq_append acc e.1 e.2
        (fun f hf => hfresh e (List.mem_cons_self e m) f hf),
      ih (acc ++ [(e.1, e.2)]) hfresh' hnodup2.2
        (fun f hf => hclean f (List.mem_cons_of_mem e hf))]
    simp

/-- C9: for a mapping with duplicate-free keys whose keys and values
contain no equals sign and no newline, writing with writeEmulatorConfig
and reading back with readEmulatorConfig yields the mapping unchanged. -/
theorem C9_config_round_trip (m : ConfigMap)
    (hnodup : (m.map Prod.fst).Nodup)
    (hclean : ∀ e ∈ m,
      ('=' ∉ e.1 ∧ '=' ∉ e.2) ∧ ('\n' ∉ e.1 ∧ '\n' ∉ e.2)) :
    readEmulatorConfig (some (writeEmulatorConfigString m)) = m := by
  simp only [readEmulatorConfig]
  rw [splitLines_write m (fun e he => (hclean e he).2),
    readFold m [] (fun f _ e' he' => absurd he' (List.not_mem_nil e')) hnodup
      (fun e he => (hclean e he).1)]
  simp

/-- C9 witness: writing the mapping a maps-to 1, b maps-to 2 and reading it
back yields the same mapping. -/
theorem C9_config_round_trip_witness :
    readEmulatorConfig (some (writeEmulatorConfigString cfgAB)) = cfgAB :=
  C9_config_round_trip cfgAB (by decide) (by decide)

end LwcCore
